import Mathlib

set_option maxHeartbeats 1000000
set_option maxRecDepth 4096

/-!
Verification development for the Terbium static semantic analyzer
(`terbium_analyzer/src/lib.rs`).  The data model and the operations are
translated from the Rust source; the syntax-tree carrier types of the
grammar crate, whose definitions are outside the analyzed sources, are
modelled from their usage in the analyzer and from the specification.
-/

/-- Source span attached to every token and syntax-tree node.  The grammar
crate's `Span` type is outside the analyzed sources; the analyzer only ever
clones spans and stores them in diagnostics, so it is modelled as an opaque
pair of positions. -/
structure Span where
  lo : Nat
  hi : Nat
deriving DecidableEq, Repr

instance : Inhabited Span := ⟨⟨0, 0⟩⟩

/-- Spanned node, as produced by the parser: a payload together with its span. -/
abbrev Spanned (α : Type) := α × Span

/-- Unary and binary operator tokens.  The grammar crate's `Operator` enum is
outside the analyzed sources; the variants are those the analyzer matches on. -/
inductive Operator where
  | Add | Sub | Mul | Div | Pow | Mod
  | BitOr | BitAnd | BitXor | BitLShift | BitRShift
  | Lt | Le | Gt | Ge | Eq | Ne
  | Not | BitNot
deriving DecidableEq, Repr

/-- `PrimitiveType` from the analyzer. -/
inductive PrimitiveType where
  | Int | Float | String | Bool
deriving DecidableEq, Repr

mutual
/-- `Type` from the analyzer (named `Ty` because `Type` is reserved in Lean).
The `Array` length is the source's `Option<u32>`, modelled as `Option Nat`;
the one place the source performs `u32` arithmetic on it (the array-sum arm of
`get_binary_op_outcome`) carries an explicit reduction modulo `2 ^ 32` in
`Ty.binaryOutcomeStep`. -/
inductive Ty where
  | Primitive : PrimitiveType → Ty
  | Union : Ty → Ty → Ty
  | And : Ty → Ty → Ty
  | Array : Ty → Option Nat → Ty
  | Tuple : List Ty → Ty
  | Func : List Ty → Ty → Ty
  | Null : Ty
  | Any : Ty
  | Deferred : DeferredType → Ty
  | Unknown : Ty

/-- `DeferredType` from the analyzer.  `TypeOf` holds a raw pointer to a scope
entry in the source; the address is modelled as an opaque number. -/
inductive DeferredType where
  | TypeOf : Nat → DeferredType
  | Known : Ty → DeferredType
  | ApplyUnary : Operator → DeferredType → DeferredType
  | ApplyBinary : Operator → DeferredType → DeferredType → DeferredType
end

mutual
/-- Structural equality on `Ty`, mirroring the derived `PartialEq` of the
source (used by `flatten` through the `a == b` match guard). -/
def Ty.beq : Ty → Ty → Bool
  | .Primitive a, .Primitive b => a == b
  | .Union a b, .Union c d => a.beq c && b.beq d
  | .And a b, .And c d => a.beq c && b.beq d
  | .Array a la, .Array b lb => a.beq b && la == lb
  | .Tuple a, .Tuple b => Ty.beqList a b
  | .Func pa ra, .Func pb rb => Ty.beqList pa pb && ra.beq rb
  | .Null, .Null => true
  | .Any, .Any => true
  | .Unknown, .Unknown => true
  | .Deferred a, .Deferred b => DeferredType.beq a b
  | _, _ => false

/-- Elementwise structural equality of type lists (derived `PartialEq` on `Vec`). -/
def Ty.beqList : List Ty → List Ty → Bool
  | [], [] => true
  | a :: as_, b :: bs => a.beq b && Ty.beqList as_ bs
  | _, _ => false

/-- Structural equality on `DeferredType` (derived `PartialEq`; pointer equality
for `TypeOf`). -/
def DeferredType.beq : DeferredType → DeferredType → Bool
  | .TypeOf a, .TypeOf b => a == b
  | .Known a, .Known b => Ty.beq a b
  | .ApplyUnary o a, .ApplyUnary p b => o == p && DeferredType.beq a b
  | .ApplyBinary o a b, .ApplyBinary p c d => o == p && DeferredType.beq a c && DeferredType.beq b d
  | _, _ => false
end

mutual
theorem Ty.beq_refl : (t : Ty) → Ty.beq t t = true
  | .Primitive a => by simp [Ty.beq]
  | .Union a b => by simp [Ty.beq, Ty.beq_refl a, Ty.beq_refl b]
  | .And a b => by simp [Ty.beq, Ty.beq_refl a, Ty.beq_refl b]
  | .Array a la => by simp [Ty.beq, Ty.beq_refl a]
  | .Tuple a => by simp [Ty.beq, Ty.beqList_refl a]
  | .Func pa ra => by simp [Ty.beq, Ty.beqList_refl pa, Ty.beq_refl ra]
  | .Null => by simp [Ty.beq]
  | .Any => by simp [Ty.beq]
  | .Unknown => by simp [Ty.beq]
  | .Deferred a => by simp [Ty.beq, DeferredType.beq_refl_deferred a]

theorem Ty.beqList_refl : (l : List Ty) → Ty.beqList l l = true
  | [] => by simp [Ty.beqList]
  | a :: as_ => by simp [Ty.beqList, Ty.beq_refl a, Ty.beqList_refl as_]

theorem DeferredType.beq_refl_deferred : (d : DeferredType) → DeferredType.beq d d = true
  | .TypeOf a => by simp [DeferredType.beq]
  | .Known a => by simp [DeferredType.beq, Ty.beq_refl a]
  | .ApplyUnary o a => by simp [DeferredType.beq, DeferredType.beq_refl_deferred a]
  | .ApplyBinary o a b => by
      simp [DeferredType.beq, DeferredType.beq_refl_deferred a, DeferredType.beq_refl_deferred b]
end

/-- `PrimitiveType::get_unary_op_outcome`.  The source binds the operand with a
`t @` pattern over the `Int | Float` alternatives and returns it unchanged for
unary plus and minus. -/
def PrimitiveType.get_unary_op_outcome (p : PrimitiveType) (op : Operator) : Option Ty :=
  match op, p with
  | .Not, _ => some (.Primitive .Bool)
  | .Add, .Int | .Sub, .Int => some (.Primitive .Int)
  | .Add, .Float | .Sub, .Float => some (.Primitive .Float)
  | .BitNot, .Int => some (.Primitive .Int)
  | _, _ => none

/-- `PrimitiveType::get_binary_op_outcome`.  The or-patterns of the source are
flattened into one match alternative per combination, in the source's arm
order. -/
def PrimitiveType.get_binary_op_outcome (p : PrimitiveType) (op : Operator) (other : Ty) : Option Ty :=
  match p, op, other with
  | .Int, .Add, .Primitive .Int | .Int, .Sub, .Primitive .Int
  | .Int, .Mul, .Primitive .Int | .Int, .Div, .Primitive .Int
  | .Int, .Pow, .Primitive .Int | .Int, .Mod, .Primitive .Int
  | .Int, .BitOr, .Primitive .Int | .Int, .BitAnd, .Primitive .Int
  | .Int, .BitXor, .Primitive .Int | .Int, .BitLShift, .Primitive .Int
  | .Int, .BitRShift, .Primitive .Int => some (.Primitive .Int)
  | .Float, .Add, .Primitive .Float | .Float, .Add, .Primitive .Int
  | .Int, .Add, .Primitive .Float
  | .Float, .Sub, .Primitive .Float | .Float, .Sub, .Primitive .Int
  | .Int, .Sub, .Primitive .Float
  | .Float, .Mul, .Primitive .Float | .Float, .Mul, .Primitive .Int
  | .Int, .Mul, .Primitive .Float
  | .Float, .Div, .Primitive .Float | .Float, .Div, .Primitive .Int
  | .Int, .Div, .Primitive .Float
  | .Float, .Pow, .Primitive .Float | .Float, .Pow, .Primitive .Int
  | .Int, .Pow, .Primitive .Float
  | .Float, .Mod, .Primitive .Float | .Float, .Mod, .Primitive .Int
  | .Int, .Mod, .Primitive .Float => some (.Primitive .Float)
  | .Float, .Lt, .Primitive .Float | .Float, .Lt, .Primitive .Int
  | .Int, .Lt, .Primitive .Float | .Int, .Lt, .Primitive .Int
  | .Float, .Le, .Primitive .Float | .Float, .Le, .Primitive .Int
  | .Int, .Le, .Primitive .Float | .Int, .Le, .Primitive .Int
  | .Float, .Gt, .Primitive .Float | .Float, .Gt, .Primitive .Int
  | .Int, .Gt, .Primitive .Float | .Int, .Gt, .Primitive .Int
  | .Float, .Ge, .Primitive .Float | .Float, .Ge, .Primitive .Int
  | .Int, .Ge, .Primitive .Float | .Int, .Ge, .Primitive .Int
  | .Float, .Eq, .Primitive .Float | .Float, .Eq, .Primitive .Int
  | .Int, .Eq, .Primitive .Float | .Int, .Eq, .Primitive .Int
  | .Float, .Ne, .Primitive .Float | .Float, .Ne, .Primitive .Int
  | .Int, .Ne, .Primitive .Float | .Int, .Ne, .Primitive .Int => some (.Primitive .Bool)
  | .String, .Add, .Primitive .String
  | .String, .Mul, .Primitive .String => some (.Primitive .String)
  | _, _, _ => none

/-- `Type::get_unary_op_outcome`, arms in the source's order: deferred,
primitive, union (both sides must support the operator), intersection (either
side suffices), logical not, and the `Any`/`Unknown` absorption arm. -/
def Ty.get_unary_op_outcome (t : Ty) (op : Operator) : Option Ty :=
  match op, t with
  | op, .Deferred d => some (.Deferred (.ApplyUnary op d))
  | op, .Primitive p => p.get_unary_op_outcome op
  | op, .Union a b =>
      match a.get_unary_op_outcome op with
      | none => none
      | some _ => b.get_unary_op_outcome op
  | op, .And a b =>
      match a.get_unary_op_outcome op with
      | some t => some t
      | none => b.get_unary_op_outcome op
  | .Not, _ => some (.Primitive .Bool)
  | _, .Any => some .Any
  | _, .Unknown => some .Unknown
  | _, _ => none

mutual
/-- Size of a type term (used only as the fuel measure of the embedding; the
built-in `sizeOf` of this nested inductive family is not executable). -/
def Ty.size : Ty → Nat
  | .Primitive _ => 1
  | .Union a b => 1 + a.size + b.size
  | .And a b => 1 + a.size + b.size
  | .Array a _ => 1 + a.size
  | .Tuple l => 1 + Ty.sizeList l
  | .Func p r => 1 + Ty.sizeList p + r.size
  | .Null => 1
  | .Any => 1
  | .Unknown => 1
  | .Deferred d => 1 + DeferredType.size d

/-- Combined size of a list of type terms. -/
def Ty.sizeList : List Ty → Nat
  | [] => 1
  | t :: ts => 1 + t.size + Ty.sizeList ts

/-- Size of a deferred-type term. -/
def DeferredType.size : DeferredType → Nat
  | .TypeOf _ => 1
  | .Known t => 1 + t.size
  | .ApplyUnary _ d => 1 + d.size
  | .ApplyBinary _ a b => 1 + a.size + b.size
end

/-- One step of `Type::get_binary_op_outcome`, with the recursive occurrences
abstracted as `rec`; arms in the source's order: two deferred operands,
primitive on the left (the source delegates to
`PrimitiveType::get_binary_op_outcome` for any right-hand type), union on
either side (both components must support the operator), intersection on
either side (either component suffices), two arrays under `Add`, two tuples
under `Add`, then the `Any` and `Unknown` absorption arms.  A union or
intersection component on the right side becomes the receiver of the recursive
call, with the untouched operand passed as the right-hand side, exactly as in
the source's or-patterns.  The source matches the array and tuple arms only
for the `Add` operator; here the operator test sits inside the arm (for any
other operator two arrays or two tuples fall through the marker arms to the
final `None`, exactly as in the source).  The source's array-length sum
`len_a.map(|l| l + len_b.unwrap_or(0))` is `u32` addition, so the sum here is
reduced modulo `2 ^ 32 = 4294967296` (the release-mode wrap-around). -/
def Ty.binaryOutcomeStep (rec : Ty → Operator → Ty → Option Ty)
    (t : Ty) (op : Operator) (other : Ty) : Option Ty :=
  match t, other with
  | .Deferred a, .Deferred b => some (.Deferred (.ApplyBinary op a b))
  | .Primitive a, b => a.get_binary_op_outcome op b
  | .Union a b, c =>
      match rec a op c with
      | none => none
      | some _ => rec b op c
  | c, .Union a b =>
      match rec a op c with
      | none => none
      | some _ => rec b op c
  | .And a b, c =>
      match rec a op c with
      | some t => some t
      | none => rec b op c
  | c, .And a b =>
      match rec a op c with
      | some t => some t
      | none => rec b op c
  | .Array ty_a len_a, .Array ty_b len_b =>
      if op = .Add then
        some (.Array (.Union ty_a ty_b)
          (len_a.map (fun l => (l + len_b.getD 0) % 4294967296)))
      else none
  | .Tuple a, .Tuple b => if op = .Add then some (.Tuple (a ++ b)) else none
  | .Any, _ => some .Any
  | _, .Any => some .Any
  | .Unknown, _ => some .Unknown
  | _, .Unknown => some .Unknown
  | _, _ => none

/-- Fuelled recursion closing `Ty.binaryOutcomeStep`.  The fuel is an artifact
of the embedding: the source recursion always descends into a component of one
of the two operands, so any fuel exceeding the combined size of the operands
is enough; `Ty.binary_fuel_irrelevant` proves the result does not depend on
the fuel once it is sufficient, and the wrapper `Ty.get_binary_op_outcome`
supplies sufficient fuel. -/
def Ty.binaryOutcomeAux : Nat → Ty → Operator → Ty → Option Ty
  | 0, _, _, _ => none
  | fuel + 1, t, op, other => Ty.binaryOutcomeStep (Ty.binaryOutcomeAux fuel) t op other

/-- Raising sufficient fuel by one never changes the outcome of
`Ty.binaryOutcomeAux`. -/
theorem Ty.binary_fuel_succ : (n : Nat) → ∀ (t : Ty) (op : Operator) (other : Ty),
    Ty.size t + Ty.size other < n →
    Ty.binaryOutcomeAux n t op other = Ty.binaryOutcomeAux (n + 1) t op other := by
  intro n
  induction n with
  | zero => intro t op other hn; omega
  | succ n ih =>
    intro t op other hn
    show Ty.binaryOutcomeStep (Ty.binaryOutcomeAux n) t op other
        = Ty.binaryOutcomeStep (Ty.binaryOutcomeAux (n + 1)) t op other
    cases t <;> cases other <;>
      simp only [Ty.binaryOutcomeStep] <;>
      first
      | rfl
      | rw [ih _ op _ (by simp [Ty.size] at hn ⊢ <;> omega),
            ih _ op _ (by simp [Ty.size] at hn ⊢ <;> omega)]

/-- Fuel above the combined operand size never changes the outcome, so the
fuel in `Ty.binaryOutcomeAux` is semantically inert. -/
theorem Ty.binary_fuel_irrelevant (n m : Nat) (t : Ty) (op : Operator) (other : Ty)
    (hn : Ty.size t + Ty.size other < n) (hm : Ty.size t + Ty.size other < m) :
    Ty.binaryOutcomeAux n t op other = Ty.binaryOutcomeAux m t op other := by
  have key : ∀ (k b : Nat), Ty.size t + Ty.size other < b →
      Ty.binaryOutcomeAux b t op other = Ty.binaryOutcomeAux (b + k) t op other := by
    intro k
    induction k with
    | zero => intro b _; rfl
    | succ k ih =>
      intro b hb
      rw [ih b hb, ← Nat.add_assoc, Ty.binary_fuel_succ (b + k) t op other (by omega)]
  rcases Nat.le_total n m with h | h
  · obtain ⟨k, rfl⟩ := Nat.le.dest h
    exact key k n hn
  · obtain ⟨k, rfl⟩ := Nat.le.dest h
    exact (key k m hm).symm

/-- `Type::get_binary_op_outcome` (see `Ty.binaryOutcomeAux` for the arm by
arm correspondence with the source). -/
def Ty.get_binary_op_outcome (t : Ty) (op : Operator) (other : Ty) : Option Ty :=
  Ty.binaryOutcomeAux (Ty.size t + Ty.size other + 1) t op other

/-- `Type::flatten`: collapses a union or intersection of two structurally
equal types into the (recursively flattened) single type; anything else is
returned unchanged. -/
def Ty.flatten : Ty → Ty
  | .Union a b => if Ty.beq a b then a.flatten else .Union a b
  | .And a b => if Ty.beq a b then a.flatten else .And a b
  | o => o

/-- C2 counterexample: the claim says a binary operation with `Any` on either
side succeeds and returns `Any`, but `int + any` hits the primitive arm first
(the left primitive delegates to the primitive rules, which reject `Any`), so
the outcome is `None`, not `Some(Any)`. -/
theorem c2_counterexample :
    Ty.get_binary_op_outcome (.Primitive .Int) .Add .Any = none ∧
    Ty.get_binary_op_outcome (.Primitive .Int) .Add .Any ≠ some .Any ∧
    Ty.get_binary_op_outcome (.Primitive .Int) .Add .Any ≠ some .Unknown := by
  refine ⟨rfl, ?_, ?_⟩ <;>
    · simp only [show Ty.get_binary_op_outcome (.Primitive .Int) .Add .Any = none from rfl]
      simp

/-- C2 amended: the `Any`/`Unknown` short-circuit of `get_binary_op_outcome`
applies only when no earlier arm captures the pair: when the left operand is
not a `Primitive` and neither operand is a `Union` or an `And`, a marker
operand makes the operation succeed, yielding `Any` if either operand is `Any`
(so `Any` beats `Unknown` in both operand orders) and `Unknown` otherwise.
When the left operand is a `Primitive`, the primitive rules apply instead and
a marker on the right is rejected; a `Union` or `And` operand distributes
instead. -/
theorem c2_amended (op : Operator) (l r : Ty)
    (hp : ∀ p, l ≠ .Primitive p)
    (hul : ∀ a b, l ≠ .Union a b) (hur : ∀ a b, r ≠ .Union a b)
    (hal : ∀ a b, l ≠ .And a b) (har : ∀ a b, r ≠ .And a b) :
    ((l = .Any ∨ r = .Any) → l.get_binary_op_outcome op r = some .Any) ∧
    (l ≠ .Any → r ≠ .Any → (l = .Unknown ∨ r = .Unknown) →
      l.get_binary_op_outcome op r = some .Unknown) := by
  cases l <;> cases r <;>
    first
    | exact absurd rfl (hp _)
    | exact absurd rfl (hul _ _)
    | exact absurd rfl (hur _ _)
    | exact absurd rfl (hal _ _)
    | exact absurd rfl (har _ _)
    | exact ⟨fun h => by first | rfl | simp_all,
        fun hl hr hu => by first | rfl | simp_all⟩

/-- C2 witness: `any * null` (left operand not primitive, no union or
intersection involved) does short-circuit to `Any`. -/
theorem c2_witness : Ty.get_binary_op_outcome .Any .Mul .Null = some .Any :=
  (c2_amended .Mul .Any .Null (fun p h => Ty.noConfusion h)
    (fun a b h => Ty.noConfusion h) (fun a b h => Ty.noConfusion h)
    (fun a b h => Ty.noConfusion h) (fun a b h => Ty.noConfusion h)).1 (Or.inl rfl)

/-- C3 counterexample: the claim says `Any` absorbs every unary operator, but
the source's `Not` arm precedes the absorption arm, so `!any` yields `bool`,
not `Any`. -/
theorem c3_counterexample :
    Ty.get_unary_op_outcome .Any .Not = some (.Primitive .Bool) ∧
    Ty.get_unary_op_outcome .Any .Not ≠ some .Any := by
  refine ⟨rfl, ?_⟩
  simp only [show Ty.get_unary_op_outcome .Any .Not = some (.Primitive .Bool) from rfl]
  simp

/-- C3 amended: `Any` and `Unknown` absorb every unary operator except `Not`
and return themselves; logical `Not` takes precedence and yields `bool` on
both markers. -/
theorem c3_amended (op : Operator) :
    (op ≠ .Not →
      Ty.get_unary_op_outcome .Any op = some .Any ∧
      Ty.get_unary_op_outcome .Unknown op = some .Unknown) ∧
    (Ty.get_unary_op_outcome .Any .Not = some (.Primitive .Bool) ∧
      Ty.get_unary_op_outcome .Unknown .Not = some (.Primitive .Bool)) := by
  cases op <;> simp [Ty.get_unary_op_outcome]

/-- C3 witness: unary `Add` on the markers returns the markers themselves. -/
theorem c3_witness :
    Ty.get_unary_op_outcome .Any .Add = some .Any ∧
    Ty.get_unary_op_outcome .Unknown .Add = some .Unknown :=
  (c3_amended .Add).1 (by decide)

/-- C4 counterexample: the claim says the sum length is unbounded whenever the
operands are not both fixed-length, but `int[3] + int[]` keeps the left
operand's fixed length 3 (the right length defaults to zero), instead of
being unbounded. -/
theorem c4_counterexample :
    Ty.get_binary_op_outcome (.Array (.Primitive .Int) (some 3)) .Add
        (.Array (.Primitive .Int) none)
      = some (.Array (.Union (.Primitive .Int) (.Primitive .Int)) (some 3)) ∧
    Ty.get_binary_op_outcome (.Array (.Primitive .Int) (some 3)) .Add
        (.Array (.Primitive .Int) none)
      ≠ some (.Array (.Union (.Primitive .Int) (.Primitive .Int)) none) := by
  refine ⟨rfl, ?_⟩
  simp only [show Ty.get_binary_op_outcome (.Array (.Primitive .Int) (some 3)) .Add
      (.Array (.Primitive .Int) none)
      = some (.Array (.Union (.Primitive .Int) (.Primitive .Int)) (some 3)) from rfl]
  simp

/-- C4 amended: adding two arrays unions the element types; over `u32`
representable lengths (below `2 ^ 32 = 4294967296`) the resulting length is
the `u32` sum (reduced modulo `2 ^ 32`, the source's wrap-around) when both
operands have fixed lengths, unbounded when the left operand is unbounded,
and the left operand's fixed length when only the right operand is unbounded
(the missing right length is treated as zero). -/
theorem c4_amended (ta tb : Ty) :
    (∀ a b : Nat, a < 4294967296 → b < 4294967296 →
      Ty.get_binary_op_outcome (.Array ta (some a)) .Add (.Array tb (some b))
        = some (.Array (.Union ta tb) (some ((a + b) % 4294967296)))) ∧
    (∀ lb : Option Nat, Ty.get_binary_op_outcome (.Array ta none) .Add (.Array tb lb)
        = some (.Array (.Union ta tb) none)) ∧
    (∀ a : Nat, a < 4294967296 →
      Ty.get_binary_op_outcome (.Array ta (some a)) .Add (.Array tb none)
        = some (.Array (.Union ta tb) (some a))) :=
  ⟨fun _ _ _ _ => rfl, fun _ => rfl, fun a ha => by
    have hstep : Ty.get_binary_op_outcome (.Array ta (some a)) .Add (.Array tb none)
        = some (.Array (.Union ta tb) (some ((a + 0) % 4294967296))) := rfl
    rw [hstep, Nat.add_zero, Nat.mod_eq_of_lt ha]⟩

/-- C4 witness: `int[2] + int[3]` has fixed length `(2 + 3) % 2 ^ 32 = 5`. -/
theorem c4_witness :
    (2 : Nat) < 4294967296 ∧ (3 : Nat) < 4294967296 ∧
    Ty.get_binary_op_outcome (.Array (.Primitive .Int) (some 2)) .Add
        (.Array (.Primitive .Int) (some 3))
      = some (.Array (.Union (.Primitive .Int) (.Primitive .Int)) (some 5)) :=
  ⟨by decide, by decide, by
    have h := (c4_amended (.Primitive .Int) (.Primitive .Int)).1 2 3
      (by decide) (by decide)
    simpa using h⟩

/-- C7: flattening a union or intersection of two copies of the same type
collapses it to the flattening of that type, and the collapse keeps applying
inside the result of a collapse. -/
theorem c7_flatten_collapses_equal_operands (A : Ty) :
    (Ty.Union A A).flatten = A.flatten ∧
    (Ty.And A A).flatten = A.flatten ∧
    (Ty.Union (.Union A A) (.Union A A)).flatten = A.flatten ∧
    (Ty.And (.And A A) (.And A A)).flatten = A.flatten := by
  refine ⟨?_, ?_, ?_, ?_⟩ <;>
    simp [Ty.flatten, Ty.beq_refl A, Ty.beq_refl (Ty.Union A A), Ty.beq_refl (Ty.And A A)]

mutual
/-- Declaration/assignment target, from the grammar crate (outside the
analyzed sources), modelled from the analyzer's patterns: a plain identifier,
an array-destructuring pattern of spanned targets, and a stand-in for the
remaining grammar target forms, which the walker does not handle (its
`todo!()` arm). -/
inductive Target where
  | Ident : String → Target
  | Array : List (Target × Span) → Target
  | Unhandled : Target

/-- Syntax-tree node, from the grammar crate (outside the analyzed sources),
modelled from the analyzer's patterns.  `Declare` carries the spanned target
list and the `mut`/`const` flags; its type-annotation and value fields are
never read by the walker and are not modelled.  `Assign` carries the spanned
target list; the walker ignores every other field (it matches them with
`..`).  `Other` stands in for the node kinds the walker does not handle (its
`unimplemented!()` arm). -/
inductive Node where
  | Module : List (Node × Span) → Node
  | Declare : List (Target × Span) → Bool → Bool → Node
  | Assign : List (Target × Span) → Node
  | Expr : Expr × Span → Node
  | Other : Node

/-- Expression, from the grammar crate (outside the analyzed sources),
modelled from the analyzer's patterns.  Literal payloads are never read by
the analyzer beyond their kind; the float payload is therefore not modelled.
`Other` stands in for the remaining grammar expression forms, which the
side-effect walker passes through. -/
inductive Expr where
  | Integer : Int → Expr
  | Float : Expr
  | String : String → Expr
  | Bool : Bool → Expr
  | Ident : String → Expr
  | UnaryExpr : Operator × Span → (Expr × Span) → Expr
  | BinaryExpr : Operator × Span → (Expr × Span) → (Expr × Span) → Expr
  | If : (Expr × Span) → (Body × Span) → List Branch → Option (Body × Span) → Expr
  | While : (Expr × Span) → List (Node × Span) → Expr
  | Other : Expr

/-- Statement body `Body(Vec<Spanned<Node>>, bool)` from the grammar crate:
the nodes and whether the last expression is returned as the body's value. -/
inductive Body where
  | mk : List (Node × Span) → Bool → Body

/-- One `else if` branch: the source stores the pair
`(Spanned<Expr>, Spanned<Body>)`; the pair is wrapped in its own constructor
because the kernel rejects the raw pair type as a nested occurrence. -/
inductive Branch where
  | mk : (Expr × Span) → (Body × Span) → Branch
end

/-- Condition of a branch (the pair's first component). -/
def Branch.condition : Branch → Expr × Span
  | .mk c _ => c

/-- Body of a branch (the pair's second component). -/
def Branch.body : Branch → Body × Span
  | .mk _ b => b

/-- Nodes of a body (its first tuple field). -/
def Body.nodes : Body → List (Node × Span)
  | .mk ns _ => ns

/-- Whether the body returns its last expression (its second tuple field). -/
def Body.return_last : Body → Bool
  | .mk _ r => r

/-- Failure channel of the analysis.  `err` models the source's
`Result::Err(&'static str)` unsupported-feature channel; `bug` models the
panics of the source (`todo!()`, `unimplemented!()`, `unreachable!()`), which
abort the walk without being ordinary `Err` values. -/
inductive Fault where
  | err : String → Fault
  | bug : String → Fault
deriving DecidableEq, Repr

/-- `ScopeEntryModifier` from the analyzer. -/
inductive ScopeEntryModifier where
  | None | Mut | Const
deriving DecidableEq, Repr

/-- `MockScopeEntry` from the analyzer: one declared binding. -/
structure MockScopeEntry where
  name : String
  ty : Ty
  modifier : ScopeEntryModifier
  used : Bool
  mutated : Bool
  span : Span

/-- `MockScopeEntry::new`: a fresh entry starts neither used nor mutated. -/
def MockScopeEntry.new (name : String) (ty : Ty) (modifier : ScopeEntryModifier)
    (span : Span) : MockScopeEntry :=
  ⟨name, ty, modifier, false, false, span⟩

/-- `MockScopeEntry::is_let`. -/
def MockScopeEntry.is_let (e : MockScopeEntry) : Bool := e.modifier = ScopeEntryModifier.None

/-- `MockScopeEntry::is_mut`. -/
def MockScopeEntry.is_mut (e : MockScopeEntry) : Bool := e.modifier = ScopeEntryModifier.Mut

/-- `MockScopeEntry::is_const`. -/
def MockScopeEntry.is_const (e : MockScopeEntry) : Bool := e.modifier = ScopeEntryModifier.Const

/-- `MockScopeEntry::is_mutated`. -/
def MockScopeEntry.is_mutated (e : MockScopeEntry) : Bool := e.mutated

/-- `MockScope`: one lexical scope.  The source stores a `HashMap` with
unique keys and unspecified iteration order; it is modelled as an association
list with unique keys (insertion overwrites in place). -/
structure MockScope where
  entries : List (String × MockScopeEntry)

/-- `MockScope::new`. -/
def MockScope.new : MockScope := ⟨[]⟩

/-- `MockScope::lookup` / `HashMap::get`. -/
def MockScope.lookup (s : MockScope) (name : String) : Option MockScopeEntry :=
  (s.entries.find? (fun kv => kv.1 == name)).map (fun kv => kv.2)

/-- Insertion into the association list backing a scope: overwrite the entry
of an existing key in place, otherwise append (`HashMap::insert`). -/
def MockScope.insertList (name : String) (entry : MockScopeEntry) :
    List (String × MockScopeEntry) → List (String × MockScopeEntry)
  | [] => [(name, entry)]
  | (k, v) :: rest =>
      if k = name then (name, entry) :: rest
      else (k, v) :: MockScope.insertList name entry rest

/-- `HashMap::insert` on a scope. -/
def MockScope.insert (s : MockScope) (name : String) (entry : MockScopeEntry) : MockScope :=
  ⟨MockScope.insertList name entry s.entries⟩

/-- Pointwise update of the entry stored under a key (the write half of
`lookup_var_mut`). -/
def MockScope.modifyEntry (s : MockScope) (name : String)
    (f : MockScopeEntry → MockScopeEntry) : MockScope :=
  ⟨s.entries.map (fun kv => if kv.1 = name then (kv.1, f kv.2) else kv)⟩

/-- `AnalyzerKind` from the analyzer: the closed enumeration of diagnostic
categories. -/
inductive AnalyzerKind where
  | NonSnakeCase
  | NonPascalCase
  | NonAscii
  | UnusedVariables
  | UnnecessaryMutVariables
  | GlobalMutableVariables
  | UnbalancedIfStatements
  | UnresolvedIdentifiers
  | RedeclaredConstVariables
  | ReassignedImmutableVariables
  | UnsupportedOperators
  | IncompatibleTypes
  | UninferableTypes
deriving DecidableEq, Repr

/-- `AnalyzerKind::severity`: 0 for hard errors, 1-5 for warnings. -/
def AnalyzerKind.severity : AnalyzerKind → Nat
  | .NonSnakeCase | .NonPascalCase | .NonAscii => 1
  | .UnusedVariables | .UnnecessaryMutVariables => 2
  | .UnbalancedIfStatements => 3
  | .GlobalMutableVariables => 4
  | .UnresolvedIdentifiers | .RedeclaredConstVariables | .ReassignedImmutableVariables
  | .UnsupportedOperators | .IncompatibleTypes | .UninferableTypes => 0

/-- `AnalyzerKind::code`: the stable error-index code. -/
def AnalyzerKind.code : AnalyzerKind → Nat
  | .NonSnakeCase => 0
  | .NonPascalCase | .UnresolvedIdentifiers => 1
  | .NonAscii | .RedeclaredConstVariables => 2
  | .UnusedVariables | .ReassignedImmutableVariables => 3
  | .UnnecessaryMutVariables | .UnsupportedOperators => 4
  | .GlobalMutableVariables | .IncompatibleTypes => 5
  | .UnbalancedIfStatements | .UninferableTypes => 6

/-- `AnalyzerKind::is_warning`. -/
def AnalyzerKind.is_warning (k : AnalyzerKind) : Bool := k.severity != 0

/-- `AnalyzerKind::is_error`. -/
def AnalyzerKind.is_error (k : AnalyzerKind) : Bool := k.severity == 0

/-- `AnalyzerSet`: the enabled diagnostic categories.  The source stores a
`HashSet`; it is modelled as a list queried by membership. -/
def AnalyzerSet : Type := List AnalyzerKind

/-- `AnalyzerSet::contains`. -/
def AnalyzerSet.contains (s : AnalyzerSet) (k : AnalyzerKind) : Bool :=
  List.elem k s

/-- `AnalyzerSet::none`: no analyzer enabled. -/
def AnalyzerSet.none : AnalyzerSet := []

/-- `AnalyzerSet::all`: every analyzer enabled. -/
def AnalyzerSet.all : AnalyzerSet :=
  [.NonSnakeCase, .NonPascalCase, .NonAscii, .UnusedVariables, .UnnecessaryMutVariables,
   .UnresolvedIdentifiers, .RedeclaredConstVariables, .ReassignedImmutableVariables,
   .GlobalMutableVariables, .UnsupportedOperators, .IncompatibleTypes, .UninferableTypes,
   .UnbalancedIfStatements]

/-- `AnalyzerMessage`, modelled as structured diagnostic data: one constructor
per factory function of the source, carrying exactly the factory's arguments
(the rendering payload built by `ariadne` is outside the diagnostic's
semantics). -/
inductive AnalyzerMessage where
  | non_snake_case (name : String) (counterpart : String) (span : Span)
  | unnecessary_mut_variable (name : String) (span : Span)
  | unused_variable (name : String) (span : Span)
  | global_mutable_variable (span : Span)
  | unresolved_identifier (name : String) (close_match : Option (String × Span)) (span : Span)
  | redeclared_const_variable (name : String) (decl_span : Span) (span : Span)
  | reassigned_immutable_variable (name : String) (decl_span : Span) (span : Span)
      (was_const : Bool)
  | unsupported_unary_operator (span : Span) (val_ty : String) (val_span : Span)
      (op : Operator) (op_span : Span)
  | unsupported_binary_operator (span : Span) (lhs_ty : String) (lhs_span : Span)
      (rhs_ty : String) (rhs_span : Span) (op : Operator) (op_span : Span)
  | unbalanced_if_statement (span : Span) (first_span : Span) (first_ty : String)
      (second_span : Span) (second_ty : String)
  | unbalanced_if_statement_no_else (span : Span) (first_span : Span) (first_ty : String)
deriving DecidableEq, Repr

/-- Modelled from the spec: `get_levenshtein_distance` lives in the crate's
util module, which is not among the analyzed sources.  Standard Levenshtein
edit distance, on character lists. -/
def levenshteinList : List Char → List Char → Nat
  | [], ys => ys.length
  | x :: xs, [] => (x :: xs).length
  | x :: xs, y :: ys =>
      if x = y then levenshteinList xs ys
      else 1 + min (levenshteinList xs ys)
        (min (levenshteinList (x :: xs) ys) (levenshteinList xs (y :: ys)))
termination_by a b => a.length + b.length
decreasing_by all_goals simp <;> omega

/-- Modelled from the spec: Levenshtein distance between two identifier
strings (the spec's "edit-distance search"). -/
def get_levenshtein_distance (a b : String) : Nat :=
  levenshteinList a.toList b.toList

/-- Modelled from the spec: `to_snake_case` lives in the crate's util module,
which is not among the analyzed sources.  Converts a name to `snake_case` by
lowering upper-case letters behind an underscore; a name already in
snake_case (such as an underscore-prefixed lower-case name) is returned
unchanged. -/
def to_snake_case (s : String) : String :=
  String.mk (s.toList.foldl
    (fun acc c => acc ++ (if c.isUpper then ['_', c.toLower] else [c])) [])

/-- `Context` from the analyzer.  Only the fields the analysis semantics
depend on are modelled: the syntax tree and the scope stack.  The token list
and the source cache exist purely for diagnostic rendering, and the `messages`
field is never used by `run_analysis` (which threads its own list); they are
omitted.  The source stores the scope stack as a vector whose last element is
the innermost scope; here the list head is the innermost scope, so the
source's reverse iteration is the natural list order. -/
structure Context where
  ast : Node
  scopes : List MockScope

/-- Fresh analysis context over a parsed tree, as `Context::from_tokens`
leaves it: a single empty (global) scope. -/
def Context.initial (ast : Node) : Context :=
  ⟨ast, [MockScope.new]⟩

/-- `Context::is_top_level`. -/
def Context.is_top_level (c : Context) : Bool := c.scopes.length == 1

/-- `Context::store_var`: insert into the innermost scope.  The source
unwraps the innermost scope (the stack is never empty while walking); an
empty stack is modelled as a no-op. -/
def Context.store_var (c : Context) (name : String) (entry : MockScopeEntry) : Context :=
  match c.scopes with
  | [] => c
  | s :: rest => { c with scopes := s.insert name entry :: rest }

/-- `Context::lookup_var`: first match from the innermost scope outward. -/
def Context.lookup_var (c : Context) (name : String) : Option MockScopeEntry :=
  c.scopes.findSome? (fun s => s.lookup name)

/-- Scope-stack update behind `Context::lookup_var_mut`: apply `f` to the
entry in the innermost scope that contains the name (the source hands out a
mutable reference to exactly that entry). -/
def Context.modifyScopes (name : String) (f : MockScopeEntry → MockScopeEntry) :
    List MockScope → List MockScope
  | [] => []
  | s :: rest =>
      if (s.lookup name).isSome then s.modifyEntry name f :: rest
      else s :: Context.modifyScopes name f rest

/-- Functional counterpart of the source's `lookup_var_mut` write: update the
first entry found from the innermost scope outward. -/
def Context.modify_var (c : Context) (name : String)
    (f : MockScopeEntry → MockScopeEntry) : Context :=
  { c with scopes := Context.modifyScopes name f c.scopes }

/-- Modelled from the spec for the float expression of the source: the
suggestion threshold `(len as f64 * 0.14).round().max(2.0) as usize`,
computed in integer arithmetic (round half up, matching the float result for
every realistic identifier length). -/
def close_match_threshold (len : Nat) : Nat := max 2 ((len * 14 + 50) / 100)

/-- `Context::close_var_match`: first declared name within the Levenshtein
threshold, scanning from the innermost scope outward. -/
def Context.close_var_match (c : Context) (name : String) : Option (String × Span) :=
  c.scopes.findSome? (fun scope =>
    scope.entries.findSome? (fun kv =>
      if get_levenshtein_distance name kv.1 ≤ close_match_threshold name.length then
        some (kv.1, kv.2.span)
      else Option.none))

/-- `Context::enter_scope`. -/
def Context.enter_scope (c : Context) : Context :=
  { c with scopes := MockScope.new :: c.scopes }

/-- Transcription of the source's `name.starts_with(\'_\')`: whether the first
character of the name is an underscore. -/
def starts_with_underscore (s : String) : Bool :=
  match s.data with
  | [] => false
  | c :: _ => c == '_'

/-- Scope-exit diagnostics for one entry, in the source's order: the
unnecessary-mutable check (entry declared `Mut`, never mutated, category
enabled), then the unused check (never used, name not underscore-prefixed,
category enabled). -/
def entry_exit_messages (analyzers : AnalyzerSet) (entry : MockScopeEntry) :
    List AnalyzerMessage :=
  (if analyzers.contains .UnnecessaryMutVariables && entry.is_mut && !entry.is_mutated
   then [.unnecessary_mut_variable entry.name entry.span] else []) ++
  (if analyzers.contains .UnusedVariables && !entry.used && !(starts_with_underscore entry.name)
   then [.unused_variable entry.name entry.span] else [])

/-- `Context::exit_scope`: pop the innermost scope and append the scope-exit
diagnostics of each of its entries to the message list.  The source pops with
an unreachable-on-empty unwrap; an empty stack is modelled as a no-op. -/
def Context.exit_scope (c : Context) (analyzers : AnalyzerSet)
    (messages : List AnalyzerMessage) : Context × List AnalyzerMessage :=
  match c.scopes with
  | [] => (c, messages)
  | scope :: rest =>
      ({ c with scopes := rest },
       messages ++ (scope.entries.map (fun kv => entry_exit_messages analyzers kv.2)).flatten)

/-- Display name of a primitive type (its `Display` impl). -/
def PrimitiveType.display (p : PrimitiveType) :=
  match p with
  | .Int => "int"
  | .Float => "float"
  | .String => "string"
  | .Bool => "bool"

/-- Positivity of the size of an optional value. -/
theorem one_le_sizeOf_option {α : Type} [SizeOf α] (o : Option α) : 1 ≤ sizeOf o := by
  cases o <;> simp <;> omega

/-- Positivity of the size of a span. -/
theorem one_le_sizeOf_span (s : Span) : 1 ≤ sizeOf s := by
  cases s <;> simp <;> omega

mutual
/-- `Display for Type`, arms in the source's order: primitives by name, a
union with `Null` on either side as the nullable shorthand, general unions
and intersections infix, arrays with their optional length, tuples and
function types with comma-joined element lists, and the opaque marker for
deferred and unknown types. -/
def Ty.display : Ty → String
  | .Primitive p => p.display
  | .Union .Null ty => "?" ++ ty.display
  | .Union ty .Null => "?" ++ ty.display
  | .Union lhs rhs => lhs.display ++ " | " ++ rhs.display
  | .And lhs rhs => lhs.display ++ " & " ++ rhs.display
  | .Array ty size => ty.display ++ "[" ++ (match size with
      | some n => toString n
      | Option.none => "") ++ "]"
  | .Tuple items => "[" ++ String.intercalate (", ") (Ty.displayList items) ++ "]"
  | .Func params ret =>
      "(" ++ String.intercalate (", ") (Ty.displayList params) ++ ") -> " ++ ret.display
  | .Null => "null"
  | .Any => "any"
  | .Deferred _ => "<unknown>"
  | .Unknown => "<unknown>"

/-- Displays of a list of types, in order. -/
def Ty.displayList : List Ty → List String
  | [] => []
  | t :: ts => t.display :: Ty.displayList ts
end

/-- Deferred declaration entry `(String, (), Span)` of the source's `Declare`
arm (its middle component is the source's literal unit placeholder where a
type should eventually go). -/
abbrev DeferEntry := String × Unit × Span

mutual
/-- The recursive target walk `recur` nested in the source's `Declare` arm:
a plain identifier that resolves to a `const` entry (searching every scope,
innermost first) emits a const-redeclaration diagnostic naming the found
entry's span, and the identifier is appended to the deferred list; an array
pattern recurses into its elements in order; any other target form is the
source's `todo!()` panic. -/
def declare_recur (ctx : Context) (messages : List AnalyzerMessage) (target : Target)
    (span tgt_span : Span) (deferred : List DeferEntry) :
    Except Fault (List AnalyzerMessage × List DeferEntry) :=
  match target with
  | .Ident s =>
      let messages :=
        match ctx.lookup_var s with
        | some entry =>
            if entry.is_const then
              messages ++ [.redeclared_const_variable s entry.span span]
            else messages
        | Option.none => messages
      .ok (messages, deferred ++ [(s, (), tgt_span)])
  | .Array targets => declare_recur_list ctx messages targets span deferred
  | .Unhandled => .error (.bug ("declaration target form not handled"))

/-- Element-wise walk of an array-destructuring pattern (the `for` loop of
`recur`): each element is visited with the declaration's span and its own
target span. -/
def declare_recur_list (ctx : Context) (messages : List AnalyzerMessage)
    (targets : List (Target × Span)) (span : Span) (deferred : List DeferEntry) :
    Except Fault (List AnalyzerMessage × List DeferEntry) :=
  match targets with
  | [] => .ok (messages, deferred)
  | (t, ts) :: rest =>
      match declare_recur ctx messages t span ts deferred with
      | .error f => .error f
      | .ok (messages, deferred) => declare_recur_list ctx messages rest span deferred
end

/-- Per-name tail of the source's `Declare` arm: the snake-case lint (gated on
its category) followed by insertion of a fresh scope entry into the innermost
scope.  The entry's type is the source's unit placeholder from `DeferEntry`
(no type is inferred yet), modelled as `Unknown`; the entry's span is the
whole declaration's span. -/
def declare_store (analyzers : AnalyzerSet) (modifier : ScopeEntryModifier) (span : Span)
    (acc : Context × List AnalyzerMessage) (d : DeferEntry) :
    Context × List AnalyzerMessage :=
  let name := d.1
  let tgt_span := d.2.2
  let messages :=
    if analyzers.contains .NonSnakeCase && name ≠ to_snake_case name then
      acc.2 ++ [.non_snake_case name (to_snake_case name) tgt_span]
    else acc.2
  (acc.1.store_var name (MockScopeEntry.new name .Unknown modifier span), messages)

/-- Request of the tree walk: the four mutually recursive entry points of the
source (`visit_expr`, `visit_node`, and its two `for` loops) as one recursion
over a single input type. -/
inductive VisitInput where
  | expr : Expr × Span → VisitInput
  | node : Node × Span → VisitInput
  | nodes : List (Node × Span) → VisitInput
  | branches : List Branch → VisitInput

mutual
/-- Number of walker calls needed above a node (fuel measure of the
embedding; see `visitAux`). -/
def Node.visitSize : Node → Nat
  | .Module m => 1 + visitSizeNodes m
  | .Expr (e, _) => 1 + Expr.visitSize e
  | _ => 1

/-- Number of walker calls needed above an expression. -/
def Expr.visitSize : Expr → Nat
  | .UnaryExpr _ (v, _) => 1 + Expr.visitSize v
  | .BinaryExpr _ (l, _) (r, _) => 1 + Expr.visitSize l + Expr.visitSize r
  | .If (c, _) (.mk bns _, _) eb el =>
      2 + Expr.visitSize c + visitSizeNodes bns + visitSizeBranches eb
        + visitSizeOptBody el
  | .While (c, _) body => 1 + Expr.visitSize c + visitSizeNodes body
  | _ => 1

/-- Number of walker calls needed above a node list. -/
def visitSizeNodes : List (Node × Span) → Nat
  | [] => 1
  | (n, _) :: rest => 1 + Node.visitSize n + visitSizeNodes rest

/-- Number of walker calls needed above a branch list. -/
def visitSizeBranches : List Branch → Nat
  | [] => 1
  | .mk (c, _) (.mk bns _, _) :: rest =>
      1 + Expr.visitSize c + visitSizeNodes bns + visitSizeBranches rest

/-- Number of walker calls needed above an optional `else` body. -/
def visitSizeOptBody : Option (Body × Span) → Nat
  | Option.none => 1
  | some (.mk bns _, _) => 1 + visitSizeNodes bns
end

/-- Fuel measure of a walk request. -/
def VisitInput.fuelFor : VisitInput → Nat
  | .expr (e, _) => Expr.visitSize e
  | .node (n, _) => Node.visitSize n
  | .nodes l => visitSizeNodes l
  | .branches l => visitSizeBranches l

/-- The recursive tree walk of the source (`visit_expr`, `visit_node` and
their loops), as one fuelled recursion over `VisitInput`; every recursive
call of the source becomes a recursive call at one less fuel.  The fuel is an
artifact of the embedding: the source recursion always descends into the
syntax tree, so any fuel exceeding `VisitInput.fuelFor` of the request is
enough (the wrappers `visit_expr`, `visit_node`, `visit_nodes` and
`visit_branches` supply such fuel, and `visitAux_fuel_succ` shows sufficient
fuel never changes the result).

Expression arm (`visit_expr` in the source): resolve identifiers (marking
them used, or emitting an unresolved-identifier diagnostic with a fuzzy
suggestion); walk `if` chains (the `if` condition and body pushed in front of
the `else if` list, each branch's body in its own scope, then the `else`
body in its own scope); walk `while` (condition, then scoped body); recurse
through unary and binary operands; pass every other expression form through.

Node arm (`visit_node` in the source): `Module` walks its nodes in order.
`Declare` takes the first target (the error fires only when the target list
is empty, despite its text), resolves the modifier (`mut` and `const`
together is the source's `unreachable!()`), emits the global-mutable lint for
a top-level `mut` declaration when enabled, recursively collects the
target's names through `declare_recur` (emitting const-redeclaration
diagnostics), and then lints and stores each collected name; any remaining
targets are ignored.  `Assign` takes the first target likewise: a resolving
identifier is marked mutated and, unless declared `Mut`, reported as an
illegal reassignment; an unresolved identifier gets an unresolved-identifier
diagnostic (and the node is abandoned without a fault); an array target is
the unsupported-feature `Err`, any other target form the source's `todo!()`.
Other node kinds are the source's `unimplemented!()`. -/
def visitAux (analyzers : AnalyzerSet) :
    Nat → Context → List AnalyzerMessage → VisitInput →
    Except Fault (Context × List AnalyzerMessage)
  | 0, _, _, _ => .error (.bug ("walker fuel exhausted"))
  | fuel + 1, ctx, messages, input =>
    match input with
    | .expr (.Ident s, span) =>
        match ctx.lookup_var s with
        | some _ => .ok (ctx.modify_var s (fun e => { e with used := true }), messages)
        | Option.none =>
            .ok (ctx, messages ++ [.unresolved_identifier s (ctx.close_var_match s) span])
    | .expr (.If condition body else_if_bodies else_body, _) =>
        match visitAux analyzers fuel ctx messages
            (.branches (Branch.mk condition body :: else_if_bodies)) with
        | .error f => .error f
        | .ok (ctx, messages) =>
            match else_body with
            | some (.mk ns _, _) =>
                match visitAux analyzers fuel ctx.enter_scope messages (.nodes ns) with
                | .error f => .error f
                | .ok (ctx, messages) => .ok (ctx.exit_scope analyzers messages)
            | Option.none => .ok (ctx, messages)
    | .expr (.While condition body, _) =>
        match visitAux analyzers fuel ctx messages (.expr condition) with
        | .error f => .error f
        | .ok (ctx, messages) =>
            match visitAux analyzers fuel ctx.enter_scope messages (.nodes body) with
            | .error f => .error f
            | .ok (ctx, messages) => .ok (ctx.exit_scope analyzers messages)
    | .expr (.UnaryExpr _ value, _) => visitAux analyzers fuel ctx messages (.expr value)
    | .expr (.BinaryExpr _ lhs rhs, _) =>
        match visitAux analyzers fuel ctx messages (.expr lhs) with
        | .error f => .error f
        | .ok (ctx, messages) => visitAux analyzers fuel ctx messages (.expr rhs)
    | .expr _ => .ok (ctx, messages)
    | .node (.Module m, _) => visitAux analyzers fuel ctx messages (.nodes m)
    | .node (.Declare targets mutFlag constFlag, span) =>
        match targets with
        | [] => .error (.err ("multiple declaration targets unsupported"))
        | (target, tgt_span) :: _ =>
            match mutFlag, constFlag with
            | true, true => .error (.bug ("unreachable: declaration both mut and const"))
            | mf, cf =>
                let modifier :=
                  if mf then ScopeEntryModifier.Mut
                  else if cf then ScopeEntryModifier.Const
                  else ScopeEntryModifier.None
                let messages :=
                  if analyzers.contains .GlobalMutableVariables && ctx.is_top_level
                      && (modifier == ScopeEntryModifier.Mut) then
                    messages ++ [.global_mutable_variable span]
                  else messages
                match declare_recur ctx messages target span tgt_span [] with
                | .error f => .error f
                | .ok (messages, deferred) =>
                    .ok (deferred.foldl (declare_store analyzers modifier span) (ctx, messages))
    | .node (.Assign targets, span) =>
        match targets with
        | [] => .error (.err ("multiple assignment targets unsupported"))
        | (target, tgt_span) :: _ =>
            match target with
            | .Ident s =>
                match ctx.lookup_var s with
                | some entry =>
                    let ctx := ctx.modify_var s (fun e => { e with mutated := true })
                    let messages :=
                      if entry.is_const || !entry.is_mut then
                        messages ++
                          [.reassigned_immutable_variable s entry.span span entry.is_const]
                      else messages
                    .ok (ctx, messages)
                | Option.none =>
                    .ok (ctx,
                      messages ++ [.unresolved_identifier s (ctx.close_var_match s) tgt_span])
            | .Array _ => .error (.err ("array assignments unsupported"))
            | .Unhandled => .error (.bug ("assignment target form not handled"))
    | .node (.Expr e, _) => visitAux analyzers fuel ctx messages (.expr e)
    | .node (.Other, _) => .error (.bug ("node kind not handled"))
    | .nodes [] => .ok (ctx, messages)
    | .nodes (n :: rest) =>
        match visitAux analyzers fuel ctx messages (.node n) with
        | .error f => .error f
        | .ok (ctx, messages) => visitAux analyzers fuel ctx messages (.nodes rest)
    | .branches [] => .ok (ctx, messages)
    | .branches (.mk condition (.mk ns _, _) :: rest) =>
        match visitAux analyzers fuel ctx messages (.expr condition) with
        | .error f => .error f
        | .ok (ctx, messages) =>
            match visitAux analyzers fuel ctx.enter_scope messages (.nodes ns) with
            | .error f => .error f
            | .ok (ctx, messages) =>
                match ctx.exit_scope analyzers messages with
                | (ctx, messages) => visitAux analyzers fuel ctx messages (.branches rest)

/-- Raising sufficient fuel by one never changes the walker's result: every
recursive call of `visitAux` descends strictly in the `VisitInput.fuelFor`
measure, so the fuel in `visitAux` is semantically inert once it exceeds the
measure. -/
theorem visitAux_fuel_succ (analyzers : AnalyzerSet) :
    (n : Nat) → ∀ (ctx : Context) (messages : List AnalyzerMessage) (input : VisitInput),
    VisitInput.fuelFor input < n →
    visitAux analyzers n ctx messages input
      = visitAux analyzers (n + 1) ctx messages input := by
  intro n
  induction n with
  | zero => intro ctx messages input hn; omega
  | succ n ih =>
    intro ctx messages input hn
    cases input with
    | expr e =>
        obtain ⟨e, sp⟩ := e
        cases e with
        | Ident s => simp only [visitAux]
        | Integer v => simp only [visitAux]
        | Float => simp only [visitAux]
        | String v => simp only [visitAux]
        | Bool v => simp only [visitAux]
        | Other => simp only [visitAux]
        | UnaryExpr op value =>
            obtain ⟨ve, vsp⟩ := value
            simp only [VisitInput.fuelFor, Expr.visitSize] at hn
            have h1 : ∀ c m, visitAux analyzers n c m (.expr (ve, vsp))
                = visitAux analyzers (n + 1) c m (.expr (ve, vsp)) :=
              fun c m => ih c m _ (by simp only [VisitInput.fuelFor]; omega)
            simp only [visitAux, h1]
        | BinaryExpr op lhs rhs =>
            obtain ⟨le, lsp⟩ := lhs
            obtain ⟨re, rsp⟩ := rhs
            simp only [VisitInput.fuelFor, Expr.visitSize] at hn
            have h1 : ∀ c m, visitAux analyzers n c m (.expr (le, lsp))
                = visitAux analyzers (n + 1) c m (.expr (le, lsp)) :=
              fun c m => ih c m _ (by simp only [VisitInput.fuelFor]; omega)
            have h2 : ∀ c m, visitAux analyzers n c m (.expr (re, rsp))
                = visitAux analyzers (n + 1) c m (.expr (re, rsp)) :=
              fun c m => ih c m _ (by simp only [VisitInput.fuelFor]; omega)
            simp only [visitAux, h1, h2]
        | While condition body =>
            obtain ⟨ce, csp⟩ := condition
            simp only [VisitInput.fuelFor, Expr.visitSize] at hn
            have h1 : ∀ c m, visitAux analyzers n c m (.expr (ce, csp))
                = visitAux analyzers (n + 1) c m (.expr (ce, csp)) :=
              fun c m => ih c m _ (by simp only [VisitInput.fuelFor]; omega)
            have h2 : ∀ c m, visitAux analyzers n c m (.nodes body)
                = visitAux analyzers (n + 1) c m (.nodes body) :=
              fun c m => ih c m _ (by simp only [VisitInput.fuelFor]; omega)
            simp only [visitAux, h1, h2]
        | If condition body else_if_bodies else_body =>
            obtain ⟨ce, csp⟩ := condition
            obtain ⟨⟨bns, bret⟩, bsp⟩ := body
            simp only [VisitInput.fuelFor, Expr.visitSize] at hn
            have h1 : ∀ c m, visitAux analyzers n c m
                  (.branches (Branch.mk (ce, csp) (⟨bns, bret⟩, bsp) :: else_if_bodies))
                = visitAux analyzers (n + 1) c m
                  (.branches (Branch.mk (ce, csp) (⟨bns, bret⟩, bsp) :: else_if_bodies)) :=
              fun c m => ih c m _ (by
                simp only [VisitInput.fuelFor, visitSizeBranches]
                have := Nat.zero_le (visitSizeOptBody else_body)
                omega)
            cases else_body with
            | none => simp only [visitAux, h1]
            | some eb =>
                obtain ⟨⟨ens, eret⟩, esp⟩ := eb
                simp only [visitSizeOptBody] at hn
                have h2 : ∀ c m, visitAux analyzers n c m (.nodes ens)
                    = visitAux analyzers (n + 1) c m (.nodes ens) :=
                  fun c m => ih c m _ (by simp only [VisitInput.fuelFor]; omega)
                simp only [visitAux, h1, h2]
    | node nd =>
        obtain ⟨nd, sp⟩ := nd
        cases nd with
        | Module m =>
            simp only [VisitInput.fuelFor, Node.visitSize] at hn
            have h1 : ∀ c m2, visitAux analyzers n c m2 (.nodes m)
                = visitAux analyzers (n + 1) c m2 (.nodes m) :=
              fun c m2 => ih c m2 _ (by simp only [VisitInput.fuelFor]; omega)
            simp only [visitAux, h1]
        | Declare targets mf cf => simp only [visitAux]
        | Assign targets => simp only [visitAux]
        | Expr e =>
            obtain ⟨ee, esp⟩ := e
            simp only [VisitInput.fuelFor, Node.visitSize] at hn
            have h1 : ∀ c m, visitAux analyzers n c m (.expr (ee, esp))
                = visitAux analyzers (n + 1) c m (.expr (ee, esp)) :=
              fun c m => ih c m _ (by simp only [VisitInput.fuelFor]; omega)
            simp only [visitAux, h1]
        | Other => simp only [visitAux]
    | nodes l =>
        cases l with
        | nil => simp only [visitAux]
        | cons nd rest =>
            obtain ⟨nd, sp⟩ := nd
            simp only [VisitInput.fuelFor, visitSizeNodes] at hn
            have h1 : ∀ c m, visitAux analyzers n c m (.node (nd, sp))
                = visitAux analyzers (n + 1) c m (.node (nd, sp)) :=
              fun c m => ih c m _ (by simp only [VisitInput.fuelFor]; omega)
            have h2 : ∀ c m, visitAux analyzers n c m (.nodes rest)
                = visitAux analyzers (n + 1) c m (.nodes rest) :=
              fun c m => ih c m _ (by simp only [VisitInput.fuelFor]; omega)
            simp only [visitAux, h1, h2]
    | branches l =>
        cases l with
        | nil => simp only [visitAux]
        | cons br rest =>
            obtain ⟨⟨ce, csp⟩, ⟨⟨bns, bret⟩, bsp⟩⟩ := br
            simp only [VisitInput.fuelFor, visitSizeBranches] at hn
            have h1 : ∀ c m, visitAux analyzers n c m (.expr (ce, csp))
                = visitAux analyzers (n + 1) c m (.expr (ce, csp)) :=
              fun c m => ih c m _ (by simp only [VisitInput.fuelFor]; omega)
            have h2 : ∀ c m, visitAux analyzers n c m (.nodes bns)
                = visitAux analyzers (n + 1) c m (.nodes bns) :=
              fun c m => ih c m _ (by simp only [VisitInput.fuelFor]; omega)
            have h3 : ∀ c m, visitAux analyzers n c m (.branches rest)
                = visitAux analyzers (n + 1) c m (.branches rest) :=
              fun c m => ih c m _ (by simp only [VisitInput.fuelFor]; omega)
            simp only [visitAux, h1, h2, h3]

/-- `visit_expr` from the analyzer (see `visitAux` for the arm by arm
correspondence with the source). -/
def visit_expr (analyzers : AnalyzerSet) (ctx : Context) (messages : List AnalyzerMessage)
    (expr : Expr × Span) : Except Fault (Context × List AnalyzerMessage) :=
  visitAux analyzers (VisitInput.fuelFor (.expr expr) + 1) ctx messages (.expr expr)

/-- `visit_node` from the analyzer (see `visitAux`). -/
def visit_node (analyzers : AnalyzerSet) (ctx : Context) (messages : List AnalyzerMessage)
    (node : Node × Span) : Except Fault (Context × List AnalyzerMessage) :=
  visitAux analyzers (VisitInput.fuelFor (.node node) + 1) ctx messages (.node node)

/-- Walk of a node list (the `for` loops over module and body nodes). -/
def visit_nodes (analyzers : AnalyzerSet) (ctx : Context) (messages : List AnalyzerMessage)
    (nodes : List (Node × Span)) : Except Fault (Context × List AnalyzerMessage) :=
  visitAux analyzers (VisitInput.fuelFor (.nodes nodes) + 1) ctx messages (.nodes nodes)

/-- Walk of the `if`/`else if` branches: each branch visits its condition in
the enclosing scope, then its body inside a fresh scope that is closed (with
its scope-exit lints) before the next branch. -/
def visit_branches (analyzers : AnalyzerSet) (ctx : Context) (messages : List AnalyzerMessage)
    (branches : List Branch) : Except Fault (Context × List AnalyzerMessage) :=
  visitAux analyzers (VisitInput.fuelFor (.branches branches) + 1) ctx messages
    (.branches branches)

/-- `infer_type` from the analyzer: literals map to their primitive types;
unary and binary expressions infer their operands, consult the type model,
and on an unsupported combination emit the corresponding unsupported-operator
diagnostic (unconditionally — the function receives no analyzer set) and
degrade to `Unknown`.  The source's `If` arm computes branch types but its
reconciliation loop is unfinished and the arm produces no value (it does not
compile as written), so it is modelled as a fault; the source's match has no
arm for the remaining expression forms (also a compile error), modelled as a
fault likewise. -/
def infer_type (ctx : Context) (messages : List AnalyzerMessage) (expr : Expr × Span) :
    Except Fault (Ty × List AnalyzerMessage) :=
  match expr with
  | (.Integer _, _) => .ok (.Primitive .Int, messages)
  | (.Float, _) => .ok (.Primitive .Float, messages)
  | (.String _, _) => .ok (.Primitive .String, messages)
  | (.Bool _, _) => .ok (.Primitive .Bool, messages)
  | (.UnaryExpr operator value, span) =>
      match infer_type ctx messages value with
      | .error f => .error f
      | .ok (t, messages) =>
          match t.get_unary_op_outcome operator.1 with
          | some ty => .ok (ty, messages)
          | Option.none =>
              .ok (.Unknown,
                messages ++ [.unsupported_unary_operator span t.display value.2
                  operator.1 operator.2])
  | (.BinaryExpr operator lhs rhs, span) =>
      match infer_type ctx messages lhs with
      | .error f => .error f
      | .ok (lhs_t, messages) =>
          match infer_type ctx messages rhs with
          | .error f => .error f
          | .ok (rhs_t, messages) =>
              match lhs_t.get_binary_op_outcome operator.1 rhs_t with
              | some ty => .ok (ty, messages)
              | Option.none =>
                  .ok (.Unknown,
                    messages ++ [.unsupported_binary_operator span lhs_t.display lhs.2
                      rhs_t.display rhs.2 operator.1 operator.2])
  | (.If _ _ _ _, _) =>
      .error (.bug ("if-expression type reconciliation is unfinished in the source"))
  | _ => .error (.bug ("expression form not handled by inference"))
termination_by sizeOf expr
decreasing_by all_goals simp_wf <;> omega

/-- `run_analysis` from the analyzer: walk the stored syntax tree (replaced
in the context by an empty module, under a placeholder span), then pop the
remaining top-level scope through `exit_scope` so its lints also apply to
top-level bindings, and return the accumulated messages.  A fault from the
walk propagates and discards the messages. -/
def run_analysis (analyzers : AnalyzerSet) (ctx : Context) :
    Except Fault (List AnalyzerMessage) :=
  let ast := ctx.ast
  let ctx := { ctx with ast := Node.Module [] }
  match visit_node analyzers ctx [] (ast, (default : Span)) with
  | .error f => .error f
  | .ok (ctx, messages) => .ok (ctx.exit_scope analyzers messages).2

/-- Membership in a conditional singleton list. -/
theorem mem_ite_singleton {α : Type} (m x : α) (c : Bool) :
    m ∈ (if c then [x] else []) ↔ (c = true ∧ m = x) := by
  cases c <;> simp

/-- Looking a name up after updating it in one scope sees the updated entry. -/
theorem MockScope.lookup_modifyEntry (sc : MockScope) (s : String)
    (f : MockScopeEntry → MockScopeEntry) :
    (sc.modifyEntry s f).lookup s = (sc.lookup s).map f := by
  obtain ⟨l⟩ := sc
  induction l with
  | nil => rfl
  | cons kv rest ih =>
      obtain ⟨k, v⟩ := kv
      by_cases hk : k = s
      · simp [MockScope.lookup, MockScope.modifyEntry, List.find?_cons, hk]
      · simp only [MockScope.lookup, MockScope.modifyEntry, List.map_cons, List.find?_cons,
          if_neg hk] at ih ⊢
        simp only [show (k == s) = false by simpa using hk]
        exact ih

/-- Looking a name up after the scope-stack update behind `lookup_var_mut`
sees the updated entry. -/
theorem lookup_var_modify_var (ctx : Context) (s : String)
    (f : MockScopeEntry → MockScopeEntry) (e : MockScopeEntry)
    (h : ctx.lookup_var s = some e) :
    (ctx.modify_var s f).lookup_var s = some (f e) := by
  obtain ⟨ast, ss⟩ := ctx
  simp only [Context.lookup_var, Context.modify_var] at h ⊢
  induction ss with
  | nil => simp at h
  | cons s0 rest ih =>
      cases hv : s0.lookup s with
      | some v =>
          have hv' : v = e := by
            simpa [List.findSome?_cons, hv] using h
          subst hv'
          simp [Context.modifyScopes, hv, List.findSome?_cons, MockScope.lookup_modifyEntry]
      | none =>
          have h' : List.findSome? (fun sc => sc.lookup s) rest = some e := by
            simpa [List.findSome?_cons, hv] using h
          simpa [Context.modifyScopes, hv, List.findSome?_cons,
            MockScope.lookup_modifyEntry] using ih h' 

/-- C1 counterexample: the claim says a `Declare` with more than one target
aborts with the unsupported-feature `Err`, but a two-target declaration
succeeds: the first target is analyzed and stored, the second is silently
ignored, and no fault is produced. -/
theorem c1_counterexample :
    visit_node AnalyzerSet.none (Context.initial (Node.Module [])) []
      (Node.Declare [(Target.Ident "a", ⟨1, 2⟩), (Target.Ident "b", ⟨3, 4⟩)] false false,
        ⟨0, 5⟩)
    = .ok (⟨Node.Module [],
        [⟨[("a", MockScopeEntry.new "a" .Unknown .None ⟨0, 5⟩)]⟩]⟩, []) := by
  simp [visit_node, visitAux, declare_recur, declare_store, Context.initial, Context.lookup_var,
    Context.store_var, MockScope.new, MockScope.lookup, MockScope.insert,
    MockScope.insertList, AnalyzerSet.contains, AnalyzerSet.none, List.elem]

/-- C1 amended: the unsupported-feature `Err` of the `Declare` and `Assign`
arms fires exactly when the target list is empty (despite the error text
naming multiple targets); when at least one target is present the first is
analyzed and any remaining targets are silently ignored, so single-target
nodes are analyzed normally and multi-target nodes behave like their
single-target truncation. -/
theorem c1_amended :
    (∀ (a : AnalyzerSet) (ctx : Context) (msgs : List AnalyzerMessage) (mf cf : Bool)
        (sp : Span),
      visit_node a ctx msgs (.Declare [] mf cf, sp)
        = .error (.err ("multiple declaration targets unsupported"))) ∧
    (∀ (a : AnalyzerSet) (ctx : Context) (msgs : List AnalyzerMessage) (sp : Span),
      visit_node a ctx msgs (.Assign [], sp)
        = .error (.err ("multiple assignment targets unsupported"))) ∧
    (∀ (a : AnalyzerSet) (ctx : Context) (msgs : List AnalyzerMessage) (mf cf : Bool)
        (t : Target × Span) (rest : List (Target × Span)) (sp : Span),
      visit_node a ctx msgs (.Declare (t :: rest) mf cf, sp)
        = visit_node a ctx msgs (.Declare [t] mf cf, sp)) ∧
    (∀ (a : AnalyzerSet) (ctx : Context) (msgs : List AnalyzerMessage)
        (t : Target × Span) (rest : List (Target × Span)) (sp : Span),
      visit_node a ctx msgs (.Assign (t :: rest), sp)
        = visit_node a ctx msgs (.Assign [t], sp)) := by
  refine ⟨?_, ?_, ?_, ?_⟩
  · intro a ctx msgs mf cf sp
    simp [visit_node, visitAux]
  · intro a ctx msgs sp
    simp [visit_node, visitAux]
  · intro a ctx msgs mf cf t rest sp
    obtain ⟨tg, ts⟩ := t
    cases mf <;> cases cf <;> simp [visit_node, visitAux, VisitInput.fuelFor, Node.visitSize]
  · intro a ctx msgs t rest sp
    obtain ⟨tg, ts⟩ := t
    cases tg <;> simp [visit_node, visitAux, VisitInput.fuelFor, Node.visitSize]

/-- Scope entry of the sample constant `y` (declared `const` at span 10-11). -/
def constYEntry : MockScopeEntry :=
  ⟨"y", .Unknown, .Const, false, false, ⟨10, 11⟩⟩

/-- Sample context whose single (innermost and only) scope holds the constant
`y`. -/
def ctxConstY : Context :=
  ⟨Node.Module [], [⟨[("y", constYEntry)]⟩]⟩

/-- C5 counterexample: the claim says a const-redeclaration diagnostic is
emitted exactly for a `const` entry in a strictly enclosing scope, but
redeclaring `y` in the very scope that holds the `const y` entry also emits
the diagnostic (and then overwrites the entry). -/
theorem c5_counterexample :
    visit_node AnalyzerSet.none ctxConstY []
      (Node.Declare [(Target.Ident "y", ⟨21, 22⟩)] false false, ⟨20, 23⟩)
    = .ok (⟨Node.Module [],
        [⟨[("y", MockScopeEntry.new "y" .Unknown .None ⟨20, 23⟩)]⟩]⟩,
        [.redeclared_const_variable "y" ⟨10, 11⟩ ⟨20, 23⟩]) := by
  simp [visit_node, visitAux, declare_recur, declare_store, ctxConstY, constYEntry,
    Context.lookup_var, Context.store_var, MockScope.lookup, MockScope.insert,
    MockScope.insertList, MockScopeEntry.is_const, AnalyzerSet.contains,
    AnalyzerSet.none, List.elem, List.find?]

/-- C5 amended: for a plain-identifier declaration target, the
const-redeclaration diagnostic is emitted exactly when `lookup_var` — which
searches every scope from the innermost outward, including the scope being
declared in — resolves the name to a `const` entry; the diagnostic references
the found entry's declaration span.  A resolving non-`const` entry and an
unresolved name produce no diagnostic (redeclaration then simply overwrites
on store).  In particular a `const` entry in the current scope, not only in a
strictly enclosing one, triggers the diagnostic. -/
theorem c5_amended :
    (∀ (ctx : Context) (msgs : List AnalyzerMessage) (s : String) (sp ts : Span)
        (df : List DeferEntry) (e : MockScopeEntry),
      ctx.lookup_var s = some e → e.is_const = true →
      declare_recur ctx msgs (.Ident s) sp ts df
        = .ok (msgs ++ [.redeclared_const_variable s e.span sp], df ++ [(s, (), ts)])) ∧
    (∀ (ctx : Context) (msgs : List AnalyzerMessage) (s : String) (sp ts : Span)
        (df : List DeferEntry) (e : MockScopeEntry),
      ctx.lookup_var s = some e → e.is_const = false →
      declare_recur ctx msgs (.Ident s) sp ts df = .ok (msgs, df ++ [(s, (), ts)])) ∧
    (∀ (ctx : Context) (msgs : List AnalyzerMessage) (s : String) (sp ts : Span)
        (df : List DeferEntry),
      ctx.lookup_var s = none →
      declare_recur ctx msgs (.Ident s) sp ts df = .ok (msgs, df ++ [(s, (), ts)])) ∧
    (∀ (ctx : Context) (scope : MockScope) (rest : List MockScope)
        (msgs : List AnalyzerMessage) (s : String) (sp ts : Span)
        (df : List DeferEntry) (e : MockScopeEntry),
      ctx.scopes = scope :: rest → scope.lookup s = some e → e.is_const = true →
      declare_recur ctx msgs (.Ident s) sp ts df
        = .ok (msgs ++ [.redeclared_const_variable s e.span sp], df ++ [(s, (), ts)])) := by
  have ident : ∀ (ctx : Context) (msgs : List AnalyzerMessage) (s : String) (sp ts : Span)
      (df : List DeferEntry),
      declare_recur ctx msgs (.Ident s) sp ts df
        = .ok ((match ctx.lookup_var s with
            | some entry =>
                if entry.is_const then msgs ++ [.redeclared_const_variable s entry.span sp]
                else msgs
            | Option.none => msgs), df ++ [(s, (), ts)]) := by
    intro ctx msgs s sp ts df
    simp [declare_recur]
  refine ⟨?_, ?_, ?_, ?_⟩
  · intro ctx msgs s sp ts df e h hc
    rw [ident, h]
    simp [hc]
  · intro ctx msgs s sp ts df e h hc
    rw [ident, h]
    simp [hc]
  · intro ctx msgs s sp ts df h
    rw [ident, h]
  · intro ctx scope rest msgs s sp ts df e hs hl hc
    have h : ctx.lookup_var s = some e := by
      simp [Context.lookup_var, hs, List.findSome?_cons, hl]
    rw [ident, h]
    simp [hc]

/-- C5 witness: redeclaring `y` while the same scope holds `const y` emits
the const-redeclaration diagnostic referencing the constant's span. -/
theorem c5_witness :
    declare_recur ctxConstY [] (.Ident "y") ⟨20, 23⟩ ⟨21, 22⟩ []
      = .ok ([.redeclared_const_variable "y" ⟨10, 11⟩ ⟨20, 23⟩], [("y", (), ⟨21, 22⟩)]) :=
  c5_amended.2.2.2 ctxConstY ⟨[("y", constYEntry)]⟩ [] [] "y" ⟨20, 23⟩ ⟨21, 22⟩ []
    constYEntry rfl rfl rfl

/-- Sample module declaring only the underscore-prefixed, never-used
`_unused` variable. -/
def moduleUnderscoreOnly : Node :=
  Node.Module [(Node.Declare [(Target.Ident "_unused", ⟨1, 2⟩)] false false, ⟨0, 3⟩)]

/-- C6: scope-exit lints.  Per entry, an unnecessary-mut diagnostic is in the
entry's scope-exit messages exactly when the entry was declared `Mut`, never
mutated, and the category is enabled; an unused-variable diagnostic exactly
when the entry was never used, its name does not start with an underscore,
and the category is enabled.  `exit_scope` pops the innermost scope and emits
exactly the messages of its entries on top of the incoming list.  In
particular a module declaring only `_unused` analyzes, with every analyzer
enabled, to zero diagnostics. -/
theorem c6_exit_scope_lints :
    (∀ (a : AnalyzerSet) (e : MockScopeEntry) (m : AnalyzerMessage),
      m ∈ entry_exit_messages a e ↔
        ((m = .unnecessary_mut_variable e.name e.span ∧
            a.contains .UnnecessaryMutVariables = true ∧
            e.modifier = .Mut ∧ e.mutated = false) ∨
         (m = .unused_variable e.name e.span ∧
            a.contains .UnusedVariables = true ∧
            e.used = false ∧ starts_with_underscore e.name = false))) ∧
    (∀ (a : AnalyzerSet) (ctx : Context) (msgs : List AnalyzerMessage)
        (scope : MockScope) (rest : List MockScope),
      ctx.scopes = scope :: rest →
      (ctx.exit_scope a msgs).1.scopes = rest ∧
      ∀ m : AnalyzerMessage, m ∈ (ctx.exit_scope a msgs).2 ↔
        m ∈ msgs ∨ ∃ kv ∈ scope.entries, m ∈ entry_exit_messages a kv.2) ∧
    run_analysis AnalyzerSet.all (Context.initial moduleUnderscoreOnly) = .ok [] := by
  refine ⟨?_, ?_, ?_⟩
  · intro a e m
    simp only [entry_exit_messages, List.mem_append, mem_ite_singleton]
    simp only [Bool.and_eq_true, Bool.not_eq_true', Bool.not_eq_true,
      MockScopeEntry.is_mut, MockScopeEntry.is_mutated, decide_eq_true_eq]
    tauto
  · intro a ctx msgs scope rest hs
    constructor
    · simp [Context.exit_scope, hs]
    · intro m
      simp only [Context.exit_scope, hs, List.mem_append, List.mem_flatten, List.mem_map]
      aesop
  · simp [run_analysis, visit_node, visitAux, VisitInput.fuelFor, Node.visitSize,
      visitSizeNodes, declare_recur, declare_store,
      moduleUnderscoreOnly, Context.initial, Context.is_top_level, Context.lookup_var,
      Context.store_var, Context.exit_scope, entry_exit_messages, MockScope.new,
      MockScope.lookup, MockScope.insert, MockScope.insertList, MockScopeEntry.new,
      MockScopeEntry.is_mut, MockScopeEntry.is_mutated, to_snake_case,
      starts_with_underscore, AnalyzerSet.contains, AnalyzerSet.all, List.elem] <;> decide

/-- Sample scope entry for a plain unused `x` (declared immutable, never used
or mutated). -/
def unusedXEntry : MockScopeEntry :=
  ⟨"x", .Unknown, .None, false, false, ⟨5, 6⟩⟩

/-- C6 witness: with every analyzer enabled, an unused non-underscore entry
contributes an unused-variable diagnostic at scope exit. -/
theorem c6_witness :
    AnalyzerMessage.unused_variable "x" ⟨5, 6⟩
      ∈ entry_exit_messages AnalyzerSet.all unusedXEntry :=
  (c6_exit_scope_lints.1 AnalyzerSet.all unusedXEntry _).mpr
    (Or.inr ⟨rfl, by decide, rfl, by decide⟩)

/-- C8: the error-severity diagnostics are emitted unconditionally, for an
arbitrary (so possibly empty) analyzer set: unresolved identifiers in
expression position, unresolved assignment targets, const redeclarations,
reassignments of non-`Mut` bindings, and — in `infer_type`, which receives no
analyzer set at all — unsupported unary and binary operators.  (The
warning-severity lints such as global-mut, snake-case, unused and
unnecessary-mut are each guarded by an explicit `contains` test in the
source; see `visit_node`, `declare_store` and `entry_exit_messages`.) -/
theorem c8_errors_unconditional :
    (∀ (a : AnalyzerSet) (ctx : Context) (msgs : List AnalyzerMessage) (s : String)
        (sp : Span),
      ctx.lookup_var s = none →
      visit_expr a ctx msgs (.Ident s, sp)
        = .ok (ctx, msgs ++ [.unresolved_identifier s (ctx.close_var_match s) sp])) ∧
    (∀ (a : AnalyzerSet) (ctx : Context) (msgs : List AnalyzerMessage) (s : String)
        (sp ts : Span) (rest : List (Target × Span)),
      ctx.lookup_var s = none →
      visit_node a ctx msgs (.Assign ((.Ident s, ts) :: rest), sp)
        = .ok (ctx, msgs ++ [.unresolved_identifier s (ctx.close_var_match s) ts])) ∧
    (∀ (ctx : Context) (msgs : List AnalyzerMessage) (s : String) (sp ts : Span)
        (df : List DeferEntry) (e : MockScopeEntry),
      ctx.lookup_var s = some e → e.is_const = true →
      declare_recur ctx msgs (.Ident s) sp ts df
        = .ok (msgs ++ [.redeclared_const_variable s e.span sp], df ++ [(s, (), ts)])) ∧
    (∀ (a : AnalyzerSet) (ctx : Context) (msgs : List AnalyzerMessage) (s : String)
        (sp ts : Span) (rest : List (Target × Span)) (e : MockScopeEntry),
      ctx.lookup_var s = some e → e.is_mut = false →
      visit_node a ctx msgs (.Assign ((.Ident s, ts) :: rest), sp)
        = .ok (ctx.modify_var s (fun x => { x with mutated := true }),
            msgs ++ [.reassigned_immutable_variable s e.span sp e.is_const])) ∧
    (∀ (ctx : Context) (msgs vmsgs : List AnalyzerMessage) (op : Operator)
        (opsp sp : Span) (v : Expr × Span) (t : Ty),
      infer_type ctx msgs v = .ok (t, vmsgs) → t.get_unary_op_outcome op = none →
      infer_type ctx msgs (.UnaryExpr (op, opsp) v, sp)
        = .ok (.Unknown,
            vmsgs ++ [.unsupported_unary_operator sp t.display v.2 op opsp])) ∧
    (∀ (ctx : Context) (msgs lmsgs rmsgs : List AnalyzerMessage) (op : Operator)
        (opsp sp : Span) (l r : Expr × Span) (lt rt : Ty),
      infer_type ctx msgs l = .ok (lt, lmsgs) →
      infer_type ctx lmsgs r = .ok (rt, rmsgs) →
      lt.get_binary_op_outcome op rt = none →
      infer_type ctx msgs (.BinaryExpr (op, opsp) l r, sp)
        = .ok (.Unknown,
            rmsgs ++ [.unsupported_binary_operator sp lt.display l.2 rt.display r.2 op opsp])) := by
  refine ⟨?_, ?_, ?_, ?_, ?_, ?_⟩
  · intro a ctx msgs s sp h
    simp [visit_expr, visitAux, h]
  · intro a ctx msgs s sp ts rest h
    simp [visit_node, visitAux, h]
  · intro ctx msgs s sp ts df e h hc
    simp [declare_recur, h, hc]
  · intro a ctx msgs s sp ts rest e h hm
    simp [visit_node, visitAux, h, hm]
  · intro ctx msgs vmsgs op opsp sp v t h1 h2
    simp [infer_type, h1, h2]
  · intro ctx msgs lmsgs rmsgs op opsp sp l r lt rt h1 h2 h3
    simp [infer_type, h1, h2, h3]

/-- C8 witness: with no analyzer enabled, an unresolved identifier expression
still emits its diagnostic. -/
theorem c8_witness :
    visit_expr AnalyzerSet.none (Context.initial (Node.Module [])) []
      (.Ident "x", ⟨7, 8⟩)
    = .ok (Context.initial (Node.Module []),
        [.unresolved_identifier "x" Option.none ⟨7, 8⟩]) := by
  have h := c8_errors_unconditional.1 AnalyzerSet.none (Context.initial (Node.Module []))
    [] "x" ⟨7, 8⟩ rfl
  simpa [Context.close_var_match, Context.initial, MockScope.new] using h

/-- Sample scope entry for a mutable `x` that is never read. -/
def mutXEntry : MockScopeEntry :=
  ⟨"x", .Unknown, .Mut, false, false, ⟨5, 6⟩⟩

/-- Sample context whose single scope holds the mutable `x`. -/
def ctxMutX : Context :=
  ⟨Node.Module [], [⟨[("x", mutXEntry)]⟩]⟩

/-- Sample module declaring `let mut x` and then only assigning to it,
never reading it. -/
def moduleAssignOnly : Node :=
  Node.Module
    [(Node.Declare [(Target.Ident "x", ⟨1, 2⟩)] true false, ⟨0, 3⟩),
     (Node.Assign [(Target.Ident "x", ⟨5, 6⟩)], ⟨4, 7⟩)]

/-- C9: visiting an `Assign` with a resolving identifier target updates
exactly the `mutated` flag — the stored entry keeps its `used` value — and
reports the reassignment exactly when the entry is not `Mut`; consequently a
variable that is only ever assigned to, never read, still yields an
unused-variable diagnostic at scope exit (with the unused and
unnecessary-mut lints enabled, the assign-only module produces exactly the
unused-variable diagnostic: the assignment suppressed the unnecessary-mut
lint but not the unused one). -/
theorem c9_assign_mutates_not_uses :
    (∀ (a : AnalyzerSet) (ctx : Context) (msgs : List AnalyzerMessage) (s : String)
        (sp ts : Span) (rest : List (Target × Span)) (e : MockScopeEntry),
      ctx.lookup_var s = some e →
      visit_node a ctx msgs (.Assign ((.Ident s, ts) :: rest), sp)
        = .ok (ctx.modify_var s (fun x => { x with mutated := true }),
            msgs ++ (if e.is_const || !e.is_mut then
              [.reassigned_immutable_variable s e.span sp e.is_const] else []))) ∧
    (∀ (ctx : Context) (s : String) (e : MockScopeEntry),
      ctx.lookup_var s = some e →
      (ctx.modify_var s (fun x => { x with mutated := true })).lookup_var s
        = some { e with mutated := true }) ∧
    run_analysis [AnalyzerKind.UnusedVariables, AnalyzerKind.UnnecessaryMutVariables]
      (Context.initial moduleAssignOnly)
      = .ok [.unused_variable "x" ⟨0, 3⟩] := by
  refine ⟨?_, ?_, ?_⟩
  · intro a ctx msgs s sp ts rest e h
    cases hc : e.is_const || !e.is_mut <;> simp [visit_node, visitAux, h, hc]
  · intro ctx s e h
    exact lookup_var_modify_var ctx s _ e h
  · simp [run_analysis, visit_node, visitAux, VisitInput.fuelFor, Node.visitSize,
      visitSizeNodes, declare_recur, declare_store,
      moduleAssignOnly, Context.initial, Context.is_top_level, Context.lookup_var,
      Context.store_var, Context.modify_var, Context.modifyScopes, Context.exit_scope,
      entry_exit_messages, MockScope.new, MockScope.lookup, MockScope.insert,
      MockScope.insertList, MockScope.modifyEntry, MockScopeEntry.new,
      MockScopeEntry.is_mut, MockScopeEntry.is_const, MockScopeEntry.is_mutated,
      to_snake_case, starts_with_underscore, AnalyzerSet.contains, List.elem] <;> decide

/-- C9 witness: assigning to the never-read mutable `x` succeeds without a
diagnostic and sets only its mutated flag. -/
theorem c9_witness :
    visit_node AnalyzerSet.none ctxMutX [] (.Assign [(.Ident "x", ⟨8, 9⟩)], ⟨7, 10⟩)
      = .ok (ctxMutX.modify_var "x" (fun x => { x with mutated := true }), []) := by
  have h := c9_assign_mutates_not_uses.1 AnalyzerSet.none ctxMutX [] "x" ⟨7, 10⟩ ⟨8, 9⟩
    [] mutXEntry rfl
  simpa [mutXEntry, MockScopeEntry.is_const, MockScopeEntry.is_mut] using h

/-- Sample module declaring a top-level `let mut x` that is never used or
mutated. -/
def moduleTopLevelMut : Node :=
  Node.Module [(Node.Declare [(Target.Ident "x", ⟨1, 2⟩)] true false, ⟨0, 3⟩)]

/-- C10: `run_analysis` walks the module and then closes the remaining
top-level scope through the very same `exit_scope` used for nested scopes,
appending its lints to the walk's messages; so top-level bindings also
receive the scope-exit lints — concretely, a top-level never-mutated,
never-used `let mut x` yields both the unnecessary-mut and the
unused-variable diagnostic. -/
theorem c10_top_level_scope_lints :
    (∀ (a : AnalyzerSet) (ctx ctx2 : Context) (msgs : List AnalyzerMessage),
      visit_node a { ctx with ast := Node.Module [] } [] (ctx.ast, (default : Span))
        = .ok (ctx2, msgs) →
      run_analysis a ctx = .ok ((ctx2.exit_scope a msgs).2)) ∧
    run_analysis [AnalyzerKind.UnusedVariables, AnalyzerKind.UnnecessaryMutVariables]
      (Context.initial moduleTopLevelMut)
      = .ok [.unnecessary_mut_variable "x" ⟨0, 3⟩, .unused_variable "x" ⟨0, 3⟩] := by
  constructor
  · intro a ctx ctx2 msgs h
    simp [run_analysis, h]
  · simp [run_analysis, visit_node, visitAux, VisitInput.fuelFor, Node.visitSize,
      visitSizeNodes, declare_recur, declare_store,
      moduleTopLevelMut, Context.initial, Context.is_top_level, Context.lookup_var,
      Context.store_var, Context.exit_scope, entry_exit_messages, MockScope.new,
      MockScope.lookup, MockScope.insert, MockScope.insertList, MockScopeEntry.new,
      MockScopeEntry.is_mut, MockScopeEntry.is_mutated, to_snake_case,
      starts_with_underscore, AnalyzerSet.contains, List.elem] <;> decide

/-- C10 witness: on the empty module the walk succeeds with no messages and
`run_analysis` returns exactly the top-level scope-exit messages (none). -/
theorem c10_witness :
    run_analysis AnalyzerSet.none (Context.initial (Node.Module [])) = .ok [] := by
  have h := c10_top_level_scope_lints.1 AnalyzerSet.none (Context.initial (Node.Module []))
    (Context.initial (Node.Module [])) []
    (by simp [visit_node, visitAux, VisitInput.fuelFor, Node.visitSize, visitSizeNodes,
      Context.initial])
  simpa [Context.exit_scope, Context.initial, MockScope.new] using h
